import Mathlib

/-! Verification of the courier-experiment analysis scripts: a shallow embedding
of `replication_analysis.py`, `merge_csv_files.py` and
`analyze_courier_experiments.py`, together with theorems about the behaviour
of `calculate_replications`, `merge_csv_files`, `extract_parameter`,
`analyze_by_configuration`, `compare_configurations_statistically` and the
command-line handling in `main`.

Numeric values are modelled by exact rationals.  The transcendental library
functions the scripts call (`math.sqrt`, the square root inside `np.std`,
`scipy.stats.t.ppf`, the Welch t-test p-value of `scipy.stats.ttest_ind`,
and the `float(...)` string parser) are passed in as oracle parameters, so
every statement is relative to an arbitrary implementation of those
libraries.  NaN and infinity, which the scripts handle explicitly, are
modelled by the `PyFloat` type.
-/

set_option autoImplicit false

namespace CourierAnalysis

/-- A Python float value as produced by numpy/scipy arithmetic: a finite
value (modelled exactly by a rational), one of the two infinities, or NaN. -/
inductive PyFloat where
  | fin : ℚ → PyFloat
  | inf : PyFloat
  | ninf : PyFloat
  | nan : PyFloat
deriving DecidableEq

/-- IEEE-style multiplication of a Python float by a finite float, used for
`t_critical * (std / math.sqrt(n))`: an infinity times zero is NaN, NaN
propagates. -/
def PyFloat.mulFin : PyFloat → ℚ → PyFloat
  | .fin t, x => .fin (t * x)
  | .nan, _ => .nan
  | .inf, x => if 0 < x then .inf else if x < 0 then .ninf else .nan
  | .ninf, x => if 0 < x then .ninf else if x < 0 then .inf else .nan

/-- Projection of the pandas DataFrame handled by `calculate_replications`
onto what the function reads: the column-name list (for the two existence
checks) and, per row, the Configuration cell together with the analysed
variable cell after `pd.to_numeric(..., errors=coerce)` — `some q` for a
cell that coerces to the number `q`, `none` for a cell that coercion turns
into NaN (and `dropna` then removes). -/
structure DataFrame where
  columns : List String
  rows : List (String × Option ℚ)

/-- Worker for `uniqueFirst`, carrying the set of values already seen. -/
def uniqueFirstGo : List String → List String → List String
  | [], _ => []
  | a :: l, seen =>
    if a ∈ seen then uniqueFirstGo l seen
    else a :: uniqueFirstGo l (a :: seen)

/-- Model of `pandas.Series.unique`: the distinct values in order of first
appearance. -/
def uniqueFirst (l : List String) : List String := uniqueFirstGo l []

/-- Model of `np.mean` of a list of values. -/
def sampleMean (vs : List ℚ) : ℚ := vs.sum / vs.length

/-- The quantity under the square root in `np.std(values, ddof=1)`:
the sum of squared deviations from the mean divided by `n - 1`. -/
def sampleVar (vs : List ℚ) : ℚ :=
  (vs.map (fun x => (x - sampleMean vs) ^ 2)).sum / ((vs.length : ℚ) - 1)

/-- The per-configuration record stored in the results dictionary of
`calculate_replications`.  `std` is NaN exactly when only one value is
present (`np.std` with `ddof=1` of a single value is 0/0).
`current_ci = none` models the `(nan, nan)` pair the code stores when the
half width is NaN or infinite.  `required_replications = none` models
`float(inf)`, the sentinel the code stores when `math.ceil` raises or
produces a non-finite value.  The purely cosmetic `precision_percentage`
display string is omitted. -/
structure ConfigResult where
  mean : ℚ
  std : PyFloat
  current_sample_size : ℕ
  current_half_width : PyFloat
  current_ci : Option (ℚ × ℚ)
  required_replications : Option ℤ
  absolute_precision : ℚ
deriving DecidableEq

/-- The loop body of `calculate_replications` for one configuration, acting
on the list of coerced numeric values of that configuration.  `sqrtF` models
`math.sqrt` and the square root inside `np.std`; `tppf` models
`scipy.stats.t.ppf` (arguments: the quantile `1 - alpha/2` and the degrees
of freedom `n - 1`), returning a `PyFloat` because `ppf` can return NaN or
infinity for extreme quantiles.

In `required_replications`, the branches mirror the Python control flow:
when `std` is NaN (n = 1) the test `std < 1e-10` is false and
`math.ceil` of the NaN expression raises ValueError, caught by the bare
`except` and replaced by infinity; when `t_critical` is NaN or infinite the
`ceil` likewise raises (ValueError (resp.) OverflowError); when
`absolute_precision` is zero the float division raises ZeroDivisionError —
all three land in the `except` branch, i.e. `none`. -/
def analyzeConfig (sqrtF : ℚ → ℚ) (tppf : ℚ → ℕ → PyFloat)
    (values : List ℚ) (relative_precision confidence : ℚ) : ConfigResult :=
  let n := values.length
  let mean := sampleMean values
  let std : PyFloat := if n ≤ 1 then .nan else .fin (sqrtF (sampleVar values))
  let t_critical : PyFloat :=
    if n ≤ 1 then .nan else tppf (1 - (1 - confidence) / 2) (n - 1)
  let absolute_precision :=
    if mean ≠ 0 then relative_precision * |mean| else relative_precision
  let current_half_width : PyFloat :=
    if t_critical = .nan ∨ n ≤ 1 then .nan
    else
      match std with
      | .fin s => t_critical.mulFin (s / sqrtF n)
      | _ => .nan
  let required_replications : Option ℤ :=
    match std with
    | .fin s =>
      if s < 1 / 10 ^ 10 then some 1
      else
        match t_critical with
        | .fin t =>
          if absolute_precision = 0 then none
          else some (Int.ceil ((t * s / absolute_precision) ^ 2))
        | _ => none
    | _ => none
  let current_ci : Option (ℚ × ℚ) :=
    match current_half_width with
    | .fin h => some (mean - h, mean + h)
    | _ => none
  ⟨mean, std, n, current_half_width, current_ci, required_replications,
    absolute_precision⟩

/-- The coerced values of the analysed variable for one configuration:
`pd.to_numeric(config_data[variable], errors=coerce).dropna().values`. -/
def configValues (data : DataFrame) (config : String) : List ℚ :=
  (data.rows.filter (fun r => r.1 = config)).filterMap (fun r => r.2)

/-- Model of `calculate_replications` from `replication_analysis.py` (the copy in
`merge_csv_files.py` is identical).  The results dictionary is modelled as
an association list in insertion order; `Except.error` models the raised
ValueError. -/
def calculate_replications (sqrtF : ℚ → ℚ) (tppf : ℚ → ℕ → PyFloat)
    (data : DataFrame) (varname : String)
    (relative_precision confidence : ℚ) :
    Except String (List (String × ConfigResult)) :=
  if "Configuration" ∉ data.columns then
    .error "Column Configuration not found in the data"
  else if varname ∉ data.columns then
    .error ("Column " ++ varname ++ " not found in the data")
  else
    .ok ((uniqueFirst (data.rows.map (fun r => r.1))).filterMap (fun config =>
      let config_data := data.rows.filter (fun r => r.1 = config)
      if config_data.length = 0 then none
      else
        let values := config_data.filterMap (fun r => r.2)
        if values.length = 0 then none
        else
          some (config,
            analyzeConfig sqrtF tppf values relative_precision confidence)))

/-- The exclusion of the output file at the top of `merge_csv_files`:
`input_files.remove(output_file)` removes the first occurrence, and runs
only when `output_file` is truthy (a nonempty string) and present. -/
def excludeOutput (input_files : List String) (output_file : Option String) :
    List String :=
  match output_file with
  | some o => if o ≠ "" ∧ o ∈ input_files then input_files.erase o
              else input_files
  | none => input_files

/-- Model of `merge_csv_files` from `merge_csv_files.py`, over an abstract row type
`ρ`.  The environment is passed in: `readCsv` models `pd.read_csv`
(`none` when the read raises and the error is caught and printed),
`basename` models `os.path.basename`, and `defaultOut` models the
timestamped default output name; the glob performed when `input_files` is
`None` is likewise modelled by the caller supplying the globbed list.
The merged frame is the concatenation of the successfully read frames, each
row paired with `some (basename file)` when `add_source_column` is set
(the added SourceFile column) and with `none` otherwise.  The function
result `none` models the two `return None` paths; writing the CSV to disk
is a side effect outside the model. -/
def merge_csv_files {ρ : Type} (readCsv : String → Option (List ρ))
    (basename : String → String) (defaultOut : String)
    (input_files : List String) (output_file : Option String)
    (add_source_column : Bool) :
    Option (String × List (ρ × Option String)) :=
  let files := excludeOutput input_files output_file
  if files = [] then none
  else
    let out := output_file.getD defaultOut
    let readFrames :=
      files.filterMap (fun f => (readCsv f).map (fun rs => (f, rs)))
    if readFrames.isEmpty then none
    else
      some (out, readFrames.flatMap (fun p =>
        p.2.map (fun r =>
          (r, if add_source_column then some (basename p.1) else none))))

/-- One attempted match of the regex `param_name=([^_]+)` at the start of
the character list `s`: it succeeds when `s` starts with the parameter name
followed by an equals sign and at least one character other than an
underscore, and the greedy group captures the maximal underscore-free run
after the equals sign. -/
def tryMatchAt (p : List Char) (s : List Char) : Option (List Char) :=
  if s.take p.length = p then
    match s.drop p.length with
    | '=' :: t =>
      if t.takeWhile (fun c => c ≠ '_') = [] then none
      else some (t.takeWhile (fun c => c ≠ '_'))
    | _ => none
  else none

/-- Model of `re.search`: scan the positions of the string left to right and return
the group captured at the first position where the pattern matches. -/
def searchParam (p : List Char) : List Char → Option (List Char)
  | [] => none
  | c :: rest =>
    match tryMatchAt p (c :: rest) with
    | some cap => some cap
    | none => searchParam p rest

/-- A value stored in a derived parameter column: a parsed float, the raw
captured string, or the comparison result produced in boolean mode.
Python `None` is the surrounding `Option`. -/
inductive ParamValue where
  | num : ℚ → ParamValue
  | str : String → ParamValue
  | bool : Bool → ParamValue
deriving DecidableEq

/-- Model of `extract_parameter` from `analyze_courier_experiments.py` (both copies
are identical).  `parseFloat` models Python `float(...)` with `none` for
the ValueError case; `config_str = none` models a non-string cell rejected
by the `isinstance` guard. -/
def extract_parameter (parseFloat : String → Option ℚ)
    (config_str : Option String) (param_name : String) (is_bool : Bool) :
    Option ParamValue :=
  match config_str with
  | none => none
  | some s =>
    match searchParam param_name.toList s.toList with
    | none => none
    | some cap =>
      let value := String.mk cap
      if is_bool then some (.bool (value.toLower == "true"))
      else
        match parseFloat value with
        | some q => some (.num q)
        | none => some (.str value)

/-- The parameter-column derivation in `load_and_parse_csv`: each row's
AutonomyLevel, CooperativenessLevel, UseMemory and MemoryFade cells are
produced by `extract_parameter` applied to the row's Configuration cell
with the respective parameter names, UseMemory in boolean mode. -/
def deriveParameterColumns (parseFloat : String → Option ℚ)
    (configCol : List (Option String)) :
    List (Option ParamValue × Option ParamValue × Option ParamValue ×
      Option ParamValue) :=
  configCol.map (fun c =>
    (extract_parameter parseFloat c "autonomy-level" false,
     extract_parameter parseFloat c "cooperativeness-level" false,
     extract_parameter parseFloat c "use-memory" true,
     extract_parameter parseFloat c "memory-fade" false))

/-- The string contains `param=value`: somewhere in it the parameter name
is followed by an equals sign and at least one non-underscore character. -/
def HasParamMatch (p s : List Char) : Prop :=
  ∃ pre c suf, s = pre ++ p ++ '=' :: c :: suf ∧ c ≠ '_'

/-- The non-NaN values of a metric column among the rows of one
configuration: `df[df[Configuration] == c][metric].dropna()`.  A row of the
analysis dataframe is its Configuration cell paired with its numeric cells,
given per column name with `none` for NaN. -/
def metricValues (rows : List (String × (String → Option ℚ)))
    (metric : String) (c : String) : List ℚ :=
  (rows.filter (fun r => r.1 = c)).filterMap (fun r => r.2 metric)

/-- The `mean` aggregate of a pandas groupby: NaN for an empty group,
otherwise the arithmetic mean of the non-NaN values. -/
def groupMean (vals : List ℚ) : Option ℚ :=
  if vals.length = 0 then none else some (sampleMean vals)

/-- The `std` aggregate (ddof = 1) of a pandas groupby: NaN for fewer than
two values, otherwise the sample standard deviation (`sqrtF` models the
square root). -/
def groupStd (sqrtF : ℚ → ℚ) (vals : List ℚ) : Option ℚ :=
  if vals.length < 2 then none else some (sqrtF (sampleVar vals))

/-- Model of `analyze_by_configuration` from `analyze_courier_experiments.py`:
group the rows by Configuration and record, for each key metric, the group
mean and sample standard deviation (`config_groups[key_metrics].agg`). -/
def analyze_by_configuration (sqrtF : ℚ → ℚ)
    (rows : List (String × (String → Option ℚ)))
    (key_metrics : List String) :
    List (String × List (String × Option ℚ × Option ℚ)) :=
  (uniqueFirst (rows.map (fun r => r.1))).map (fun c =>
    (c, key_metrics.map (fun m =>
      (m, groupMean (metricValues rows m c),
        groupStd sqrtF (metricValues rows m c)))))

/-- A p-value matrix: the configurations indexing it together with its
entries by index pair. -/
structure PMatrix where
  configs : List String
  entry : ℕ → ℕ → Option ℚ

/-- The p-value matrix of one metric as it stands after the fill loops of
`compare_configurations_statistically`: the diagonal holds 1.0; for
`i ≠ j` both cells of the unordered pair were assigned when
`itertools.combinations` processed the pair `(min i j, max i j)` — the
Welch p-value `ttestP` of the two groups when both have at least two
non-NaN values, NaN otherwise. -/
def pMatrixEntry (ttestP : List ℚ → List ℚ → ℚ)
    (rows : List (String × (String → Option ℚ))) (metric : String)
    (configs : List String) (i j : ℕ) : Option ℚ :=
  if i = j then some 1
  else
    if 2 ≤ (metricValues rows metric (configs.getD (min i j) "")).length ∧
        2 ≤ (metricValues rows metric (configs.getD (max i j) "")).length
    then
      some (ttestP (metricValues rows metric (configs.getD (min i j) ""))
        (metricValues rows metric (configs.getD (max i j) "")))
    else none

/-- Model of `compare_configurations_statistically` from
`analyze_courier_experiments.py`: `none` (Python None) with at most one
distinct configuration; otherwise one filled p-value matrix per key metric
present among the columns.  `ttestP` models the p-value returned by
`scipy.stats.ttest_ind(..., equal_var=False)` (Welch's t-test). -/
def compare_configurations_statistically (ttestP : List ℚ → List ℚ → ℚ)
    (columns : List String) (rows : List (String × (String → Option ℚ)))
    (key_metrics : List String) : Option (List (String × PMatrix)) :=
  if (uniqueFirst (rows.map (fun r => r.1))).length ≤ 1 then none
  else
    some ((key_metrics.filter (fun m => m ∈ columns)).map (fun m =>
      (m, ⟨uniqueFirst (rows.map (fun r => r.1)),
        pMatrixEntry ttestP rows m
          (uniqueFirst (rows.map (fun r => r.1)))⟩)))

/-- The file-name resolution at the top of the analysis script's `main`,
with file names as character lists (Python string slicing `[:-4]` and
`endswith` act on characters).  `arg` is `sys.argv[1]` when present,
`defaultName` the fixed default CSV file name.  Returns the CSV path that
is read and the base name used for the outputs. -/
def resolvePaths (arg : Option (List Char)) (defaultName : List Char) :
    List Char × List Char :=
  let file_path := arg.getD defaultName
  if file_path.drop (file_path.length - 4) = ".csv".toList then
    (file_path, file_path.take (file_path.length - 4))
  else
    (file_path ++ ".csv".toList, file_path)

/-- The load guard in `main`: the analyses run only when
`load_and_parse_csv` neither failed (`None`) nor produced zero rows. -/
def mainProceeds {ρ : Type} (loadResult : Option (List ρ)) : Bool :=
  match loadResult with
  | none => false
  | some rows => decide (rows.length ≠ 0)

/-- A concrete square-root oracle for the witnesses. -/
def sqrtF0 : ℚ → ℚ := fun q => if q = 1 then 1 else if q = 3 then 7/4 else 0

/-- A concrete t-quantile oracle for the witnesses. -/
def tppf0 : ℚ → ℕ → PyFloat := fun _ _ => .fin 2

/-- A concrete dataset: one configuration with values 0, 1, 2. -/
def data0 : DataFrame :=
  ⟨["Configuration", "AvgEarnings"], [("a", some 0), ("a", some 1), ("a", some 2)]⟩

/-- The entry `calculate_replications` stores for `data0`. -/
def result0 : ConfigResult := analyzeConfig sqrtF0 tppf0 [0, 1, 2] (1/10) (19/20)

/-- A concrete dataset whose configuration has sample mean zero. -/
def data1 : DataFrame :=
  ⟨["Configuration", "AvgEarnings"], [("a", some (-1)), ("a", some 1)]⟩

/-- The entry `calculate_replications` stores for `data1`. -/
def result1 : ConfigResult := analyzeConfig sqrtF0 tppf0 [-1, 1] (1/10) (19/20)

/-- A concrete dataset whose configuration has a single value. -/
def data2 : DataFrame := ⟨["Configuration", "AvgEarnings"], [("b", some 5)]⟩

/-- The entry `calculate_replications` stores for `data2`. -/
def result2 : ConfigResult := analyzeConfig sqrtF0 tppf0 [5] (1/10) (19/20)

/-- A concrete CSV reader: one readable file of two rows. -/
def readCsv0 : String → Option (List ℕ) :=
  fun f => if f = "a.csv" then some [1, 2] else none

/-- Concrete metric cells for the comparison witnesses. -/
def fA : String → Option ℚ := fun _ => some 1
def fA2 : String → Option ℚ := fun _ => some 3
def fB : String → Option ℚ := fun _ => some 2
def fB2 : String → Option ℚ := fun _ => some 6

/-- Concrete rows: two configurations with two runs each. -/
def rowsC : List (String × (String → Option ℚ)) :=
  [("a", fA), ("a", fA2), ("b", fB), ("b", fB2)]

/-- A concrete Welch p-value oracle. -/
def ttestP0 : List ℚ → List ℚ → ℚ := fun _ _ => 1/2

/-- The p-value matrix produced for `rowsC`. -/
def matC : PMatrix := ⟨["a", "b"], pMatrixEntry ttestP0 rowsC "M" ["a", "b"]⟩

/-- The per-metric summary stored for configuration a of `rowsC`. -/
def entryA : List (String × Option ℚ × Option ℚ) :=
  [("M", groupMean (metricValues rowsC "M" "a"),
    groupStd sqrtF0 (metricValues rowsC "M" "a"))]

/-- The per-metric summary stored for configuration b of `rowsC`. -/
def entryB : List (String × Option ℚ × Option ℚ) :=
  [("M", groupMean (metricValues rowsC "M" "b"),
    groupStd sqrtF0 (metricValues rowsC "M" "b"))]

/-- A concrete float parser for the extraction witnesses. -/
def parseFloat0 : String → Option ℚ := fun s => if s = "0.5" then some (1/2) else none

theorem mem_uniqueFirstGo : ∀ (l seen : List String) (x : String),
    x ∈ uniqueFirstGo l seen ↔ x ∈ l ∧ x ∉ seen := by
  intro l
  induction l with
  | nil => intro seen x; simp [uniqueFirstGo]
  | cons a l ih =>
    intro seen x
    rw [uniqueFirstGo]
    by_cases ha : a ∈ seen
    · rw [if_pos ha, ih]
      constructor
      · rintro ⟨hx, hns⟩
        exact ⟨List.mem_cons_of_mem a hx, hns⟩
      · rintro ⟨hx, hns⟩
        rcases List.mem_cons.mp hx with hxa | hxl
        · exact absurd (hxa ▸ ha) hns
        · exact ⟨hxl, hns⟩
    · rw [if_neg ha]
      by_cases hxa : x = a
      · subst hxa
        simp [ha]
      · simp only [List.mem_cons, hxa, false_or]
        rw [ih]
        constructor
        · rintro ⟨hx, hns⟩
          refine ⟨hx, fun hs => hns (List.mem_cons_of_mem a hs)⟩
        · rintro ⟨hx, hns⟩
          refine ⟨hx, fun hs => ?_⟩
          rcases List.mem_cons.mp hs with h1 | h2
          · exact hxa h1
          · exact hns h2

theorem mem_uniqueFirst (l : List String) (x : String) :
    x ∈ uniqueFirst l ↔ x ∈ l := by
  rw [uniqueFirst, mem_uniqueFirstGo]
  simp

/-- Every entry of the results dictionary is the loop body applied to that
configuration's coerced values, and those values are nonempty. -/
theorem mem_calc_results (sqrtF : ℚ → ℚ) (tppf : ℚ → ℕ → PyFloat)
    (data : DataFrame) (varname : String) (relative_precision confidence : ℚ)
    (res : List (String × ConfigResult)) (config : String) (r : ConfigResult)
    (hok : calculate_replications sqrtF tppf data varname
      relative_precision confidence = .ok res)
    (hmem : (config, r) ∈ res) :
    r = analyzeConfig sqrtF tppf (configValues data config)
      relative_precision confidence ∧ configValues data config ≠ [] := by
  unfold calculate_replications at hok
  split at hok
  · exact absurd hok (by simp)
  · split at hok
    · exact absurd hok (by simp)
    · have hres := (Except.ok.injEq _ _).mp hok
      subst hres
      rw [List.mem_filterMap] at hmem
      obtain ⟨a, _, ha⟩ := hmem
      simp only at ha
      split at ha
      · exact absurd ha (by simp)
      · split at ha
        · exact absurd ha (by simp)
        · rename_i hvals
          have := (Option.some.injEq _ _).mp ha
          have hac : a = config := congrArg Prod.fst this
          subst hac
          refine ⟨(congrArg Prod.snd this).symm, ?_⟩
          intro hnil
          rw [configValues] at hnil
          rw [hnil] at hvals
          simp at hvals

/-- A configuration is a key of the results dictionary exactly when some row
carries that configuration together with a coercible value. -/
theorem calc_keys (sqrtF : ℚ → ℚ) (tppf : ℚ → ℕ → PyFloat)
    (data : DataFrame) (varname : String) (relative_precision confidence : ℚ)
    (res : List (String × ConfigResult)) (config : String)
    (hok : calculate_replications sqrtF tppf data varname
      relative_precision confidence = .ok res) :
    (∃ r, (config, r) ∈ res) ↔
      ∃ row ∈ data.rows, row.1 = config ∧ row.2 ≠ none := by
  unfold calculate_replications at hok
  split at hok
  · exact absurd hok (by simp)
  split at hok
  · exact absurd hok (by simp)
  have hres := (Except.ok.injEq _ _).mp hok
  subst hres
  constructor
  · rintro ⟨r, hmem⟩
    rw [List.mem_filterMap] at hmem
    obtain ⟨a, hau, ha⟩ := hmem
    simp only at ha
    split at ha
    · exact absurd ha (by simp)
    split at ha
    · exact absurd ha (by simp)
    rename_i hcd hvals
    have heq := (Option.some.injEq _ _).mp ha
    have hac : a = config := congrArg Prod.fst heq
    subst hac
    have hne : (data.rows.filter (fun r => r.1 = a)).filterMap
        (fun r => r.2) ≠ [] := by
      intro hnil; rw [hnil] at hvals; simp at hvals
    obtain ⟨q, hq⟩ := List.exists_mem_of_ne_nil _ hne
    rw [List.mem_filterMap] at hq
    obtain ⟨row, hrowf, hrow2⟩ := hq
    rw [List.mem_filter] at hrowf
    refine ⟨row, hrowf.1, by simpa using hrowf.2, by simp [hrow2]⟩
  · rintro ⟨row, hrow, hfst, hsnd⟩
    obtain ⟨q, hq⟩ := Option.ne_none_iff_exists.mp hsnd
    refine ⟨analyzeConfig sqrtF tppf
      ((data.rows.filter (fun r => r.1 = config)).filterMap (fun r => r.2))
      relative_precision confidence, ?_⟩
    rw [List.mem_filterMap]
    refine ⟨config, ?_, ?_⟩
    · rw [mem_uniqueFirst, List.mem_map]
      exact ⟨row, hrow, hfst⟩
    · have hrowf : row ∈ data.rows.filter (fun r => r.1 = config) := by
        rw [List.mem_filter]; exact ⟨hrow, by simp [hfst]⟩
      have hcd : ¬ (data.rows.filter (fun r => r.1 = config)).length = 0 := by
        intro h0
        rw [List.length_eq_zero] at h0
        rw [h0] at hrowf
        exact absurd hrowf (List.not_mem_nil _)
      have hq2 : q ∈ (data.rows.filter (fun r => r.1 = config)).filterMap
          (fun r => r.2) :=
        List.mem_filterMap.mpr ⟨row, hrowf, hq.symm⟩
      have hvals : ¬ ((data.rows.filter (fun r => r.1 = config)).filterMap
          (fun r => r.2)).length = 0 := by
        intro h0
        rw [List.length_eq_zero] at h0
        rw [h0] at hq2
        exact absurd hq2 (List.not_mem_nil _)
      simp only [hcd, hvals, if_false, if_neg, ite_false]

/-- C1: for every dataset with the Configuration column and the analysed
variable column, and every configuration whose coerced numeric values have
sample size at least 2, sample standard deviation at least 1e-10 and a
finite t-critical value (the Student-t quantile at 1 - alpha/2 with n - 1
degrees of freedom), when the sample mean is nonzero the stored entry has
absolute_precision = relative_precision * |mean|,
required_replications = ceil((t_critical * std / absolute_precision)^2),
current_half_width = t_critical * std / sqrt(n) and
current_ci = (mean - current_half_width, mean + current_half_width).
The relative precision is assumed nonzero so that the division inside the
formula is meaningful. -/
theorem calculate_replications_formula (sqrtF : ℚ → ℚ) (tppf : ℚ → ℕ → PyFloat)
    (data : DataFrame) (varname : String) (relative_precision confidence : ℚ)
    (res : List (String × ConfigResult)) (config : String) (r : ConfigResult)
    (t : ℚ)
    (hok : calculate_replications sqrtF tppf data varname
      relative_precision confidence = .ok res)
    (hmem : (config, r) ∈ res)
    (hn : 2 ≤ (configValues data config).length)
    (hstd : 1 / 10 ^ 10 ≤ sqrtF (sampleVar (configValues data config)))
    (ht : tppf (1 - (1 - confidence) / 2)
      ((configValues data config).length - 1) = .fin t)
    (hmean : sampleMean (configValues data config) ≠ 0)
    (hrel : relative_precision ≠ 0) :
    r.absolute_precision =
      relative_precision * |sampleMean (configValues data config)| ∧
    r.required_replications =
      some (Int.ceil ((t * sqrtF (sampleVar (configValues data config)) /
        (relative_precision * |sampleMean (configValues data config)|)) ^ 2)) ∧
    r.current_half_width =
      .fin (t * sqrtF (sampleVar (configValues data config)) /
        sqrtF ((configValues data config).length)) ∧
    r.current_ci =
      some (sampleMean (configValues data config) -
          t * sqrtF (sampleVar (configValues data config)) /
            sqrtF ((configValues data config).length),
        sampleMean (configValues data config) +
          t * sqrtF (sampleVar (configValues data config)) /
            sqrtF ((configValues data config).length)) := by
  obtain ⟨hr, -⟩ := mem_calc_results sqrtF tppf data varname
    relative_precision confidence res config r hok hmem
  subst hr
  have h1 : ¬ (configValues data config).length ≤ 1 := by omega
  have habs : ¬ sqrtF (sampleVar (configValues data config)) < 1 / 10 ^ 10 :=
    not_lt.mpr hstd
  have hprec : relative_precision * |sampleMean (configValues data config)| ≠ 0 :=
    mul_ne_zero hrel (abs_ne_zero.mpr hmean)
  have hdivmul : t * (sqrtF (sampleVar (configValues data config)) /
      sqrtF ((configValues data config).length)) =
      t * sqrtF (sampleVar (configValues data config)) /
        sqrtF ((configValues data config).length) :=
    (mul_div_assoc _ _ _).symm
  have hcond : ¬ (PyFloat.fin t = PyFloat.nan ∨
      (configValues data config).length ≤ 1) := by simp [h1]
  simp only [analyzeConfig, if_neg h1, ht, if_pos hmean, if_neg habs,
    if_neg hprec, if_neg hcond, PyFloat.mulFin, hdivmul]
  simp

/-- C2: `calculate_replications` raises ValueError exactly when the data
lacks the Configuration column or lacks the requested variable column, and
whenever both columns are present it returns a results dictionary without
raising; on the error path no (even partial) dictionary is produced. -/
theorem calculate_replications_error_iff (sqrtF : ℚ → ℚ)
    (tppf : ℚ → ℕ → PyFloat) (data : DataFrame) (varname : String)
    (relative_precision confidence : ℚ) :
    ((∃ e, calculate_replications sqrtF tppf data varname
        relative_precision confidence = .error e) ↔
      ("Configuration" ∉ data.columns ∨ varname ∉ data.columns)) ∧
    ("Configuration" ∈ data.columns → varname ∈ data.columns →
      ∃ res, calculate_replications sqrtF tppf data varname
        relative_precision confidence = .ok res) := by
  unfold calculate_replications
  by_cases h1 : "Configuration" ∈ data.columns
  · by_cases h2 : varname ∈ data.columns
    · simp [h1, h2]
    · simp [h1, h2]
  · simp [h1]

/-- C8: for a configuration whose sample mean is exactly zero, the stored
absolute_precision is the relative_precision value itself, used as an
absolute tolerance; consequently (for at least two values, a nonzero
relative precision and a finite t-critical value) the required replication
count is finite. -/
theorem calculate_replications_zero_mean (sqrtF : ℚ → ℚ)
    (tppf : ℚ → ℕ → PyFloat) (data : DataFrame) (varname : String)
    (relative_precision confidence : ℚ)
    (res : List (String × ConfigResult)) (config : String) (r : ConfigResult)
    (hok : calculate_replications sqrtF tppf data varname
      relative_precision confidence = .ok res)
    (hmem : (config, r) ∈ res)
    (hmean : sampleMean (configValues data config) = 0) :
    r.absolute_precision = relative_precision ∧
    (2 ≤ (configValues data config).length → relative_precision ≠ 0 →
      ∀ t : ℚ, tppf (1 - (1 - confidence) / 2)
          ((configValues data config).length - 1) = .fin t →
        ∃ k : ℤ, r.required_replications = some k) := by
  obtain ⟨hr, -⟩ := mem_calc_results sqrtF tppf data varname
    relative_precision confidence res config r hok hmem
  subst hr
  have hm : ¬ sampleMean (configValues data config) ≠ 0 := by simp [hmean]
  constructor
  · simp only [analyzeConfig, if_neg hm]
  · intro hn hrel t ht
    have h1 : ¬ (configValues data config).length ≤ 1 := by omega
    by_cases hs : sqrtF (sampleVar (configValues data config)) < 1 / 10 ^ 10
    · exact ⟨1, by
        simp only [analyzeConfig, if_neg h1, if_neg hm, ht, if_pos hs]⟩
    · exact ⟨Int.ceil ((t * sqrtF (sampleVar (configValues data config)) /
        relative_precision) ^ 2), by
        simp only [analyzeConfig, if_neg h1, if_neg hm, ht, if_neg hs,
          if_neg hrel]⟩

/-- C9: `calculate_replications` never lets the NaN arithmetic escape: a
configuration with exactly one coerced value gets std = NaN,
current_half_width = NaN, current_ci = (NaN, NaN) and
required_replications = infinity (the `math.ceil` failure is caught and
replaced by infinity), and a configuration with at least two values whose
sample standard deviation is below 1e-10 gets required_replications = 1. -/
theorem calculate_replications_degenerate (sqrtF : ℚ → ℚ)
    (tppf : ℚ → ℕ → PyFloat) (data : DataFrame) (varname : String)
    (relative_precision confidence : ℚ)
    (res : List (String × ConfigResult)) (config : String) (r : ConfigResult)
    (hok : calculate_replications sqrtF tppf data varname
      relative_precision confidence = .ok res)
    (hmem : (config, r) ∈ res) :
    ((configValues data config).length = 1 →
      r.std = .nan ∧ r.current_half_width = .nan ∧ r.current_ci = none ∧
        r.required_replications = none) ∧
    (2 ≤ (configValues data config).length →
      sqrtF (sampleVar (configValues data config)) < 1 / 10 ^ 10 →
      r.required_replications = some 1) := by
  obtain ⟨hr, -⟩ := mem_calc_results sqrtF tppf data varname
    relative_precision confidence res config r hok hmem
  subst hr
  constructor
  · intro hlen
    have h1 : (configValues data config).length ≤ 1 := by omega
    simp [analyzeConfig, if_pos h1]
  · intro hn hs
    have h1 : ¬ (configValues data config).length ≤ 1 := by omega
    simp only [analyzeConfig, if_neg h1, if_pos hs]

/-- C10: the key set of the returned dictionary is exactly the set of
Configuration values having at least one coercible numeric value for the
analysed variable (configurations with no coercible value are silently
omitted), and every stored entry records as current_sample_size the count
of that configuration's coercible values, which is at least 1. -/
theorem calculate_replications_keys (sqrtF : ℚ → ℚ)
    (tppf : ℚ → ℕ → PyFloat) (data : DataFrame) (varname : String)
    (relative_precision confidence : ℚ)
    (res : List (String × ConfigResult))
    (hok : calculate_replications sqrtF tppf data varname
      relative_precision confidence = .ok res) :
    (∀ config, (∃ r, (config, r) ∈ res) ↔
      ∃ row ∈ data.rows, row.1 = config ∧ row.2 ≠ none) ∧
    (∀ config r, (config, r) ∈ res →
      r.current_sample_size = (configValues data config).length ∧
      1 ≤ r.current_sample_size) := by
  refine ⟨fun config => calc_keys sqrtF tppf data varname relative_precision
    confidence res config hok, fun config r hmem => ?_⟩
  obtain ⟨hr, hne⟩ := mem_calc_results sqrtF tppf data varname
    relative_precision confidence res config r hok hmem
  subst hr
  refine ⟨rfl, ?_⟩
  have hpos : 0 < (configValues data config).length :=
    List.length_pos.mpr hne
  exact hpos

/-- The successfully read (file, frame) pairs project to the successfully
read frames. -/
theorem readFrames_map_snd {ρ : Type} (readCsv : String → Option (List ρ)) :
    ∀ files : List String,
      (files.filterMap (fun f => (readCsv f).map (fun rs => (f, rs)))).map
          (fun p => p.2) =
        files.filterMap readCsv := by
  intro files
  induction files with
  | nil => rfl
  | cons f fs ih =>
    cases hf : readCsv f with
    | none => simp [List.filterMap_cons, hf, ih]
    | some rs => simp [List.filterMap_cons, hf, ih]

/-- Branch equation: empty input list (after exclusion). -/
theorem merge_eq_none_of_empty {ρ : Type} (readCsv : String → Option (List ρ))
    (basename : String → String) (defaultOut : String)
    (input_files : List String) (output_file : Option String)
    (add_source_column : Bool)
    (hfl : excludeOutput input_files output_file = []) :
    merge_csv_files readCsv basename defaultOut input_files output_file
      add_source_column = none := by
  simp [merge_csv_files, hfl]

/-- Branch equation: nothing could be read. -/
theorem merge_eq_none_of_unread {ρ : Type} (readCsv : String → Option (List ρ))
    (basename : String → String) (defaultOut : String)
    (input_files : List String) (output_file : Option String)
    (add_source_column : Bool)
    (hrf : (excludeOutput input_files output_file).filterMap
      (fun f => (readCsv f).map (fun rs => (f, rs))) = []) :
    merge_csv_files readCsv basename defaultOut input_files output_file
      add_source_column = none := by
  by_cases hfl : excludeOutput input_files output_file = []
  · simp [merge_csv_files, hfl]
  · simp [merge_csv_files, hfl, List.isEmpty_iff, hrf]

/-- Branch equation: the success path. -/
theorem merge_eq_some_of_read {ρ : Type} (readCsv : String → Option (List ρ))
    (basename : String → String) (defaultOut : String)
    (input_files : List String) (output_file : Option String)
    (add_source_column : Bool)
    (hfl : ¬ excludeOutput input_files output_file = [])
    (hrf : ¬ (excludeOutput input_files output_file).filterMap
      (fun f => (readCsv f).map (fun rs => (f, rs))) = []) :
    merge_csv_files readCsv basename defaultOut input_files output_file
        add_source_column =
      some (output_file.getD defaultOut,
        ((excludeOutput input_files output_file).filterMap
          (fun f => (readCsv f).map (fun rs => (f, rs)))).flatMap (fun p =>
            p.2.map (fun r =>
              (r, if add_source_column then some (basename p.1)
                else none)))) := by
  simp [merge_csv_files, hfl, List.isEmpty_iff, hrf]

/-- C4: `merge_csv_files` returns `None` exactly when the input list is
empty after excluding the output file or when no input file could be read;
otherwise it returns the output path paired with a merged frame whose row
count is the sum of the row counts of the successfully read inputs, and in
which (when `add_source_column` is set) every row carries the basename of
the source file it came from. -/
theorem merge_csv_files_spec {ρ : Type} (readCsv : String → Option (List ρ))
    (basename : String → String) (defaultOut : String)
    (input_files : List String) (output_file : Option String)
    (add_source_column : Bool) :
    (merge_csv_files readCsv basename defaultOut input_files output_file
        add_source_column = none ↔
      excludeOutput input_files output_file = [] ∨
        ∀ f ∈ excludeOutput input_files output_file, readCsv f = none) ∧
    (∀ out rows,
      merge_csv_files readCsv basename defaultOut input_files output_file
          add_source_column = some (out, rows) →
        rows.length =
          (((excludeOutput input_files output_file).filterMap readCsv).map
            List.length).sum ∧
        (add_source_column = true → ∀ p ∈ rows,
          ∃ f ∈ excludeOutput input_files output_file, ∃ rs,
            readCsv f = some rs ∧ p.1 ∈ rs ∧ p.2 = some (basename f))) := by
  have hreadnil : ((excludeOutput input_files output_file).filterMap
        (fun f => (readCsv f).map (fun rs => (f, rs))) = []) ↔
      ∀ f ∈ excludeOutput input_files output_file, readCsv f = none := by
    rw [List.filterMap_eq_nil_iff]
    constructor
    · intro hall f hf
      have := hall f hf
      cases h : readCsv f with
      | none => rfl
      | some rs => rw [h] at this; simp at this
    · intro hall f hf
      rw [hall f hf]
      rfl
  constructor
  · by_cases hfl : excludeOutput input_files output_file = []
    · simp only [merge_eq_none_of_empty readCsv basename defaultOut
        input_files output_file add_source_column hfl, hfl, true_or]
    · by_cases hrf : (excludeOutput input_files output_file).filterMap
          (fun f => (readCsv f).map (fun rs => (f, rs))) = []
      · simp only [merge_eq_none_of_unread readCsv basename defaultOut
          input_files output_file add_source_column hrf, hfl, false_or,
          true_iff]
        exact hreadnil.mp hrf
      · rw [merge_eq_some_of_read readCsv basename defaultOut input_files
          output_file add_source_column hfl hrf]
        simp only [hfl, false_or]
        constructor
        · intro h; exact absurd h (by simp)
        · intro hall
          exact absurd (hreadnil.mpr hall) hrf
  · intro out rows hsome
    by_cases hfl : excludeOutput input_files output_file = []
    · rw [merge_eq_none_of_empty readCsv basename defaultOut input_files
        output_file add_source_column hfl] at hsome
      exact absurd hsome (by simp)
    · by_cases hrf : (excludeOutput input_files output_file).filterMap
          (fun f => (readCsv f).map (fun rs => (f, rs))) = []
      · rw [merge_eq_none_of_unread readCsv basename defaultOut input_files
          output_file add_source_column hrf] at hsome
        exact absurd hsome (by simp)
      · rw [merge_eq_some_of_read readCsv basename defaultOut input_files
          output_file add_source_column hfl hrf] at hsome
        have heq := (Option.some.injEq _ _).mp hsome
        have hrows : rows = ((excludeOutput input_files
            output_file).filterMap (fun f =>
              (readCsv f).map (fun rs => (f, rs)))).flatMap (fun p =>
                p.2.map (fun r => (r, if add_source_column then
                  some (basename p.1) else none))) :=
          (congrArg Prod.snd heq).symm
        subst hrows
        constructor
        · rw [List.length_flatMap]
          rw [← readFrames_map_snd readCsv]
          rw [List.map_map]
          congr 1
          apply List.map_congr_left
          intro p hp
          simp
        · intro hadd p hp
          rw [List.mem_flatMap] at hp
          obtain ⟨q, hq, hpq⟩ := hp
          rw [List.mem_filterMap] at hq
          obtain ⟨f, hf, hread⟩ := hq
          cases hrc : readCsv f with
          | none => rw [hrc] at hread; exact absurd hread (by simp)
          | some rs =>
            rw [hrc] at hread
            simp only [Option.map_some'] at hread
            have hq2 := (Option.some.injEq _ _).mp hread
            refine ⟨f, hf, rs, hrc, ?_, ?_⟩
            · rw [← hq2] at hpq
              rw [List.mem_map] at hpq
              obtain ⟨r, hr, hrp⟩ := hpq
              rw [← hrp]
              exact hr
            · rw [← hq2] at hpq
              rw [List.mem_map] at hpq
              obtain ⟨r, hr, hrp⟩ := hpq
              rw [← hrp, hadd]
              rfl

theorem tryMatchAt_eq_some_iff (p s cap : List Char) :
    tryMatchAt p s = some cap ↔
      ∃ t, s = p ++ '=' :: t ∧
        cap = t.takeWhile (fun c => c ≠ '_') ∧ cap ≠ [] := by
  unfold tryMatchAt
  constructor
  · intro h
    split at h
    · rename_i htake
      split at h
      · rename_i t hdrop
        split at h
        · exact absurd h (by simp)
        · rename_i hcap
          have hc := (Option.some.injEq _ _).mp h
          subst hc
          refine ⟨t, ?_, rfl, hcap⟩
          conv_lhs => rw [← List.take_append_drop p.length s]
          rw [htake, hdrop]
      · exact absurd h (by simp)
    · exact absurd h (by simp)
  · rintro ⟨t, rfl, hcap, hne⟩
    have htake : (p ++ '=' :: t).take p.length = p := by
      rw [List.take_append_of_le_length (le_refl p.length)]
      simp
    have hdrop : (p ++ '=' :: t).drop p.length = '=' :: t := by
      rw [List.drop_append_of_le_length (le_refl p.length)]
      simp
    rw [if_pos htake, hdrop]
    subst hcap
    simp only [if_neg hne]

theorem hasParamMatch_nil (p : List Char) : ¬ HasParamMatch p [] := by
  rintro ⟨pre, c, suf, h, -⟩
  exact absurd h.symm (by simp)

theorem hasParamMatch_cons (p : List Char) (a : Char) (rest : List Char) :
    HasParamMatch p (a :: rest) ↔
      (∃ c suf, a :: rest = p ++ '=' :: c :: suf ∧ c ≠ '_') ∨
        HasParamMatch p rest := by
  constructor
  · rintro ⟨pre, c, suf, heq, hc⟩
    cases pre with
    | nil => exact Or.inl ⟨c, suf, by simpa using heq, hc⟩
    | cons b pre2 =>
      refine Or.inr ⟨pre2, c, suf, ?_, hc⟩
      have hcons : a :: rest = b :: (pre2 ++ p ++ '=' :: c :: suf) := by
        simpa using heq
      exact ((List.cons.injEq _ _ _ _).mp hcons).2
  · rintro (⟨c, suf, heq, hc⟩ | ⟨pre, c, suf, heq, hc⟩)
    · exact ⟨[], c, suf, by simpa using heq, hc⟩
    · exact ⟨a :: pre, c, suf, by simp [heq], hc⟩

/-- The pattern matches at the very start of `s` exactly when `s` starts
with the parameter name, an equals sign and a non-underscore character. -/
theorem tryMatchAt_isSome_iff (p s : List Char) :
    (∃ cap, tryMatchAt p s = some cap) ↔
      ∃ c suf, s = p ++ '=' :: c :: suf ∧ c ≠ '_' := by
  constructor
  · rintro ⟨cap, hcap⟩
    rw [tryMatchAt_eq_some_iff] at hcap
    obtain ⟨t, rfl, hc, hne⟩ := hcap
    cases t with
    | nil =>
      rw [List.takeWhile_nil] at hc
      exact absurd hc hne
    | cons c suf =>
      by_cases hcu : c = '_'
      · rw [List.takeWhile_cons] at hc
        rw [hcu] at hc
        simp only [decide_not, ne_eq] at hc
        simp at hc
        exact absurd hc hne
      · exact ⟨c, suf, rfl, hcu⟩
  · rintro ⟨c, suf, rfl, hc⟩
    refine ⟨(c :: suf).takeWhile (fun x => x ≠ '_'), ?_⟩
    rw [tryMatchAt_eq_some_iff]
    refine ⟨c :: suf, rfl, rfl, ?_⟩
    rw [List.takeWhile_cons]
    simp [hc]

theorem searchParam_eq_none_iff (p : List Char) :
    ∀ l, searchParam p l = none ↔ ¬ HasParamMatch p l := by
  intro l
  induction l with
  | nil =>
    constructor
    · intro _; exact hasParamMatch_nil p
    · intro _; rfl
  | cons a rest ih =>
    rw [searchParam]
    cases htry : tryMatchAt p (a :: rest) with
    | some cap =>
      simp only
      constructor
      · intro h; exact absurd h (by simp)
      · intro hno
        exfalso
        apply hno
        rw [hasParamMatch_cons]
        exact Or.inl ((tryMatchAt_isSome_iff p (a :: rest)).mp ⟨cap, htry⟩)
    | none =>
      simp only
      have hnot0 : ¬ ∃ c suf, a :: rest = p ++ '=' :: c :: suf ∧ c ≠ '_' := by
        intro hex
        obtain ⟨cap, hcap⟩ := (tryMatchAt_isSome_iff p (a :: rest)).mpr hex
        rw [htry] at hcap
        exact absurd hcap (by simp)
      rw [ih, hasParamMatch_cons, not_or]
      exact (and_iff_right hnot0).symm

theorem searchParam_eq_some (p : List Char) :
    ∀ l cap, searchParam p l = some cap →
      ∃ pre t, l = pre ++ p ++ '=' :: t ∧
        cap = t.takeWhile (fun c => c ≠ '_') ∧ cap ≠ [] := by
  intro l
  induction l with
  | nil => intro cap h; exact absurd h (by simp [searchParam])
  | cons a rest ih =>
    intro cap h
    rw [searchParam] at h
    cases htry : tryMatchAt p (a :: rest) with
    | some cap2 =>
      simp only [htry] at h
      have hcc : cap2 = cap := by simpa using h
      subst hcc
      rw [tryMatchAt_eq_some_iff] at htry
      obtain ⟨t, heq, hc, hne⟩ := htry
      exact ⟨[], t, by simpa using heq, hc, hne⟩
    | none =>
      simp only [htry] at h
      obtain ⟨pre, t, heq, hc, hne⟩ := ih cap h
      exact ⟨a :: pre, t, by simp [heq], hc, hne⟩

theorem dropWhile_cons_false {α : Type} (p : α → Bool) :
    ∀ (l : List α) (r0 : α) (rr : List α),
      l.dropWhile p = r0 :: rr → p r0 = false := by
  intro l
  induction l with
  | nil => intro r0 rr h; exact absurd h (by simp)
  | cons a l ih =>
    intro r0 rr h
    rw [List.dropWhile_cons] at h
    by_cases hp : p a = true
    · rw [if_pos hp] at h
      exact ih _ _ h
    · rw [if_neg hp] at h
      have har := (List.cons.injEq _ _ _ _).mp h
      rw [← har.1]
      exact Bool.not_eq_true _ |>.mp hp

/-- Equation for `extract_parameter` when the search fails. -/
theorem extract_parameter_of_search_none (parseFloat : String → Option ℚ)
    (s : String) (param_name : String) (is_bool : Bool)
    (hsp : searchParam param_name.toList s.toList = none) :
    extract_parameter parseFloat (some s) param_name is_bool = none := by
  rw [extract_parameter, hsp]

/-- Equation for `extract_parameter` when the search captures a group. -/
theorem extract_parameter_of_search_some (parseFloat : String → Option ℚ)
    (s : String) (param_name : String) (is_bool : Bool) (cap : List Char)
    (hsp : searchParam param_name.toList s.toList = some cap) :
    extract_parameter parseFloat (some s) param_name is_bool =
      (if is_bool then
        some (.bool ((String.mk cap).toLower == "true"))
      else
        match parseFloat (String.mk cap) with
        | some q => some (.num q)
        | none => some (.str (String.mk cap))) := by
  rw [extract_parameter, hsp]

/-- C5: `load_and_parse_csv` derives each row's AutonomyLevel,
CooperativenessLevel, UseMemory and MemoryFade cells from the Configuration
cell via `extract_parameter`; `extract_parameter` returns None on every
non-string input and on every string not containing `param-name=value`;
on a matching string it captures the maximal run of non-underscore
characters after the equals sign, returning it parsed as a float when
possible and as the raw string otherwise, and in boolean mode returning
true exactly when the captured value lowercased equals the string true. -/
theorem extract_parameter_spec (parseFloat : String → Option ℚ)
    (param_name : String) (is_bool : Bool) :
    (∀ (configCol : List (Option String)) (i : ℕ),
      (deriveParameterColumns parseFloat configCol)[i]? =
        configCol[i]?.map (fun c =>
          (extract_parameter parseFloat c "autonomy-level" false,
           extract_parameter parseFloat c "cooperativeness-level" false,
           extract_parameter parseFloat c "use-memory" true,
           extract_parameter parseFloat c "memory-fade" false))) ∧
    extract_parameter parseFloat none param_name is_bool = none ∧
    (∀ s : String, ¬ HasParamMatch param_name.toList s.toList →
      extract_parameter parseFloat (some s) param_name is_bool = none) ∧
    (∀ s : String, HasParamMatch param_name.toList s.toList →
      ∃ v, extract_parameter parseFloat (some s) param_name is_bool =
        some v) ∧
    (∀ (s : String) (v : ParamValue),
      extract_parameter parseFloat (some s) param_name is_bool = some v →
      ∃ pre t rest,
        s.toList = pre ++ param_name.toList ++ '=' :: t ∧
        t = t.takeWhile (fun c => c ≠ '_') ++ rest ∧
        t.takeWhile (fun c => c ≠ '_') ≠ [] ∧
        (∀ c ∈ t.takeWhile (fun c => c ≠ '_'), c ≠ '_') ∧
        (rest = [] ∨ ∃ r, rest = '_' :: r) ∧
        (is_bool = true →
          v = .bool ((String.mk (t.takeWhile (fun c => c ≠ '_'))).toLower ==
            "true")) ∧
        (is_bool = false →
          v = match parseFloat (String.mk (t.takeWhile (fun c => c ≠ '_')))
            with
            | some q => .num q
            | none => .str (String.mk (t.takeWhile (fun c => c ≠ '_'))))) := by
  refine ⟨?_, rfl, ?_, ?_, ?_⟩
  · intro configCol i
    rw [deriveParameterColumns, List.getElem?_map]
  · intro s hno
    exact extract_parameter_of_search_none parseFloat s param_name is_bool
      ((searchParam_eq_none_iff _ _).mpr hno)
  · intro s hmatch
    cases hsp : searchParam param_name.toList s.toList with
    | none => exact absurd hmatch ((searchParam_eq_none_iff _ _).mp hsp)
    | some cap =>
      rw [extract_parameter_of_search_some parseFloat s param_name is_bool
        cap hsp]
      cases is_bool with
      | true => exact ⟨.bool ((String.mk cap).toLower == "true"), rfl⟩
      | false =>
        cases hpf : parseFloat (String.mk cap) with
        | some q => exact ⟨.num q, by rw [if_neg (by simp)]⟩
        | none =>
          exact ⟨.str (String.mk cap), by rw [if_neg (by simp)]⟩
  · intro s v hv
    cases hsp : searchParam param_name.toList s.toList with
    | none =>
      rw [extract_parameter_of_search_none parseFloat s param_name
        is_bool hsp] at hv
      exact absurd hv (by simp)
    | some cap =>
      rw [extract_parameter_of_search_some parseFloat s param_name is_bool
        cap hsp] at hv
      obtain ⟨pre, t, heq, hcap, hne⟩ := searchParam_eq_some _ _ _ hsp
      subst hcap
      refine ⟨pre, t, t.dropWhile (fun c => c ≠ '_'), heq,
        (List.takeWhile_append_dropWhile _ _).symm, hne, ?_, ?_, ?_, ?_⟩
      · intro c hc
        have := List.mem_takeWhile_imp hc
        simpa using this
      · cases hd : t.dropWhile (fun c => c ≠ '_') with
        | nil => exact Or.inl rfl
        | cons r0 rr =>
          refine Or.inr ⟨rr, ?_⟩
          have hw : r0 = '_' := by
            have := dropWhile_cons_false (fun c => decide (c ≠ '_')) t
              r0 rr hd
            simpa using this
          rw [hw]
      · intro hb
        rw [hb, if_pos rfl] at hv
        exact ((Option.some.injEq _ _).mp hv).symm
      · intro hb
        rw [hb] at hv
        rw [if_neg (by simp)] at hv
        cases hpf : parseFloat (String.mk
            (t.takeWhile (fun c => c ≠ '_'))) with
        | some q =>
          rw [hpf] at hv
          exact ((Option.some.injEq _ _).mp hv).symm
        | none =>
          rw [hpf] at hv
          exact ((Option.some.injEq _ _).mp hv).symm

/-- C6: in the summary returned by `analyze_by_configuration`, for each
configuration and key metric the mean entry is the arithmetic mean of the
metric over exactly the rows with that Configuration value and the std
entry is the sample standard deviation (ddof = 1) over those same rows;
rows of other configurations never influence a configuration's entry
(appending rows of other configurations leaves its group values
unchanged). -/
theorem analyze_by_configuration_spec (sqrtF : ℚ → ℚ)
    (rows : List (String × (String → Option ℚ)))
    (key_metrics : List String) :
    (∀ c entry,
      (c, entry) ∈ analyze_by_configuration sqrtF rows key_metrics →
      ∀ m μ σ, (m, μ, σ) ∈ entry →
        (metricValues rows m c ≠ [] →
          μ = some (sampleMean (metricValues rows m c))) ∧
        (2 ≤ (metricValues rows m c).length →
          σ = some (sqrtF (sampleVar (metricValues rows m c))))) ∧
    (∀ c (extra : List (String × (String → Option ℚ))),
      (∀ r ∈ extra, r.1 ≠ c) →
      ∀ m, metricValues (rows ++ extra) m c = metricValues rows m c) := by
  constructor
  · intro c entry hmem m μ σ hin
    rw [analyze_by_configuration, List.mem_map] at hmem
    obtain ⟨c2, -, hc2⟩ := hmem
    have hcc : c2 = c := congrArg Prod.fst hc2
    subst hcc
    have hentry : entry = key_metrics.map (fun m =>
        (m, groupMean (metricValues rows m c2),
          groupStd sqrtF (metricValues rows m c2))) :=
      (congrArg Prod.snd hc2).symm
    subst hentry
    rw [List.mem_map] at hin
    obtain ⟨m2, -, hm2⟩ := hin
    have hmm : m2 = m := congrArg Prod.fst hm2
    subst hmm
    have hμ : μ = groupMean (metricValues rows m2 c2) :=
      (congrArg (fun p => p.2.1) hm2).symm
    have hσ : σ = groupStd sqrtF (metricValues rows m2 c2) :=
      (congrArg (fun p => p.2.2) hm2).symm
    subst hμ
    subst hσ
    constructor
    · intro hne
      rw [groupMean, if_neg (by simpa [List.length_eq_zero] using hne)]
    · intro h2
      rw [groupStd, if_neg (by omega)]
  · intro c extra hextra m
    rw [metricValues, metricValues, List.filter_append]
    have hnil : extra.filter (fun r => r.1 = c) = [] := by
      rw [List.filter_eq_nil_iff]
      intro r hr
      simpa using hextra r hr
    rw [hnil, List.append_nil]

/-- C3: with at least two distinct configurations,
`compare_configurations_statistically` returns, for each compared metric, a
p-value matrix that is symmetric, has 1.0 on the diagonal, holds the Welch
p-value for every pair of distinct configurations whose two groups both
have at least two non-NaN values and NaN when either group is smaller;
with at most one distinct configuration it returns None. -/
theorem compare_configurations_spec (ttestP : List ℚ → List ℚ → ℚ)
    (columns : List String) (rows : List (String × (String → Option ℚ)))
    (key_metrics : List String) :
    ((uniqueFirst (rows.map (fun r => r.1))).length ≤ 1 →
      compare_configurations_statistically ttestP columns rows
        key_metrics = none) ∧
    (2 ≤ (uniqueFirst (rows.map (fun r => r.1))).length →
      ∃ res, compare_configurations_statistically ttestP columns rows
        key_metrics = some res) ∧
    (∀ res, compare_configurations_statistically ttestP columns rows
        key_metrics = some res →
      ∀ m mat, (m, mat) ∈ res →
        mat.configs = uniqueFirst (rows.map (fun r => r.1)) ∧
        (∀ i j, mat.entry i j = mat.entry j i) ∧
        (∀ i, mat.entry i i = some 1) ∧
        (∀ i j, i < j →
          ((2 ≤ (metricValues rows m (mat.configs.getD i "")).length ∧
            2 ≤ (metricValues rows m (mat.configs.getD j "")).length) →
            mat.entry i j =
              some (ttestP (metricValues rows m (mat.configs.getD i ""))
                (metricValues rows m (mat.configs.getD j "")))) ∧
          (¬ (2 ≤ (metricValues rows m (mat.configs.getD i "")).length ∧
              2 ≤ (metricValues rows m (mat.configs.getD j "")).length) →
            mat.entry i j = none))) := by
  refine ⟨?_, ?_, ?_⟩
  · intro h
    rw [compare_configurations_statistically, if_pos h]
  · intro h
    rw [compare_configurations_statistically, if_neg (by omega)]
    exact ⟨_, rfl⟩
  · intro res hres m mat hmem
    rw [compare_configurations_statistically] at hres
    split at hres
    · exact absurd hres (by simp)
    · have hr := (Option.some.injEq _ _).mp hres
      subst hr
      rw [List.mem_map] at hmem
      obtain ⟨m2, -, hm2⟩ := hmem
      have hmm : m2 = m := congrArg Prod.fst hm2
      subst hmm
      have hmat : mat = ⟨uniqueFirst (rows.map (fun r => r.1)),
          pMatrixEntry ttestP rows m2
            (uniqueFirst (rows.map (fun r => r.1)))⟩ :=
        (congrArg Prod.snd hm2).symm
      subst hmat
      refine ⟨rfl, ?_, ?_, ?_⟩
      · intro i j
        by_cases hij : i = j
        · subst hij; rfl
        · have hji : ¬ j = i := fun h => hij h.symm
          simp only [pMatrixEntry, if_neg hij, if_neg hji,
            min_comm j i, max_comm j i]
      · intro i
        simp [pMatrixEntry]
      · intro i j hij
        have hmin : min i j = i := min_eq_left (le_of_lt hij)
        have hmax : max i j = j := max_eq_right (le_of_lt hij)
        have hne : ¬ i = j := Nat.ne_of_lt hij
        constructor
        · intro hboth
          simp only [pMatrixEntry, if_neg hne, hmin, hmax, if_pos hboth]
        · intro hnot
          simp only [pMatrixEntry, if_neg hne, hmin, hmax, if_neg hnot]

/-- C7: `main` reads the CSV path from the first command-line argument,
falling back to the fixed default name; an argument without the `.csv`
suffix has the suffix appended to form the file to read while the original
string names the outputs; an argument with the suffix is read as given and
has its last four characters (which are exactly `.csv`) stripped to form
the output base name; and main exits without analysing exactly when
loading fails or yields zero rows. -/
theorem main_cli_spec {ρ : Type} (defaultName : List Char) :
    (resolvePaths none defaultName = resolvePaths (some defaultName)
      defaultName) ∧
    (∀ s : List Char, ¬ s.drop (s.length - 4) = ".csv".toList →
      resolvePaths (some s) defaultName = (s ++ ".csv".toList, s)) ∧
    (∀ s : List Char, s.drop (s.length - 4) = ".csv".toList →
      resolvePaths (some s) defaultName = (s, s.take (s.length - 4)) ∧
        s.take (s.length - 4) ++ ".csv".toList = s) ∧
    (∀ loadResult : Option (List ρ),
      mainProceeds loadResult = false ↔
        loadResult = none ∨ loadResult = some []) := by
  refine ⟨rfl, ?_, ?_, ?_⟩
  · intro s hs
    rw [resolvePaths]
    simp only [Option.getD_some]
    rw [if_neg hs]
  · intro s hs
    constructor
    · rw [resolvePaths]
      simp only [Option.getD_some]
      rw [if_pos hs]
    · conv_rhs => rw [← List.take_append_drop (s.length - 4) s]
      rw [hs]
  · intro loadResult
    cases loadResult with
    | none => simp [mainProceeds]
    | some rows =>
      cases rows with
      | nil => simp [mainProceeds]
      | cons a l => simp [mainProceeds]

/-- Witness for C1 at `data0`. -/
theorem calculate_replications_formula_witness :
    result0.required_replications = some 400 ∧
    result0.current_half_width = .fin (8/7) := by
  have hvals : configValues data0 "a" = [0, 1, 2] := rfl
  have hmean : sampleMean (configValues data0 "a") = 1 := by
    rw [hvals]; norm_num [sampleMean]
  have hvar : sampleVar (configValues data0 "a") = 1 := by
    rw [hvals]; norm_num [sampleVar, sampleMean]
  have h := calculate_replications_formula sqrtF0 tppf0 data0 "AvgEarnings"
    (1/10) (19/20) [("a", result0)] "a" result0 2 rfl
    (List.mem_singleton.mpr rfl) (by decide)
    (by rw [hvar]; norm_num [sqrtF0]) rfl
    (by rw [hmean]; norm_num) (by norm_num)
  refine ⟨?_, ?_⟩
  · rw [h.2.1, hvar, hmean]
    norm_num [sqrtF0]
  · rw [h.2.2.1, hvar, hvals]
    norm_num [sqrtF0]

/-- Witness for C2 at `data0` and a column-free frame. -/
theorem calculate_replications_error_iff_witness :
    (∃ res, calculate_replications sqrtF0 tppf0 data0 "AvgEarnings"
      (1/10) (19/20) = .ok res) ∧
    (∃ e, calculate_replications sqrtF0 tppf0 (DataFrame.mk ["X"] [])
      "AvgEarnings" (1/10) (19/20) = .error e) := by
  constructor
  · exact (calculate_replications_error_iff sqrtF0 tppf0 data0 "AvgEarnings"
      (1/10) (19/20)).2 (by decide) (by decide)
  · exact (calculate_replications_error_iff sqrtF0 tppf0 ⟨["X"], []⟩
      "AvgEarnings" (1/10) (19/20)).1.mpr (Or.inl (by decide))

/-- Witness for C8 at `data1`. -/
theorem calculate_replications_zero_mean_witness :
    result1.absolute_precision = 1/10 ∧
    ∃ k : ℤ, result1.required_replications = some k := by
  have hmean : sampleMean (configValues data1 "a") = 0 := by
    rw [show configValues data1 "a" = [-1, 1] from rfl]
    norm_num [sampleMean]
  have h := calculate_replications_zero_mean sqrtF0 tppf0 data1 "AvgEarnings"
    (1/10) (19/20) [("a", result1)] "a" result1 rfl
    (List.mem_singleton.mpr rfl) hmean
  exact ⟨h.1, h.2 (by decide) (by norm_num) 2 rfl⟩

/-- Witness for C9 at `data2` and `data1`. -/
theorem calculate_replications_degenerate_witness :
    (result2.std = .nan ∧ result2.current_half_width = .nan ∧
      result2.current_ci = none ∧ result2.required_replications = none) ∧
    result1.required_replications = some 1 := by
  constructor
  · have h := calculate_replications_degenerate sqrtF0 tppf0 data2
      "AvgEarnings" (1/10) (19/20) [("b", result2)] "b" result2 rfl
      (List.mem_singleton.mpr rfl)
    exact h.1 (by decide)
  · have h := calculate_replications_degenerate sqrtF0 tppf0 data1
      "AvgEarnings" (1/10) (19/20) [("a", result1)] "a" result1 rfl
      (List.mem_singleton.mpr rfl)
    refine h.2 (by decide) ?_
    rw [show configValues data1 "a" = [-1, 1] from rfl]
    have hv : sampleVar [(-1 : ℚ), 1] = 2 := by
      norm_num [sampleVar, sampleMean]
    rw [hv]
    norm_num [sqrtF0]

/-- Witness for C10 at `data0`. -/
theorem calculate_replications_keys_witness :
    (∃ r, ("a", r) ∈ [("a", result0)]) ∧ result0.current_sample_size = 3 := by
  have h := calculate_replications_keys sqrtF0 tppf0 data0 "AvgEarnings"
    (1/10) (19/20) [("a", result0)] rfl
  constructor
  · exact (h.1 "a").mpr ⟨("a", some 0), List.mem_cons_self _ _, rfl, by simp⟩
  · have h2 := (h.2 "a" result0 (List.mem_singleton.mpr rfl)).1
    rw [h2]
    decide

/-- Witness for C4 at a concrete file list. -/
theorem merge_csv_files_spec_witness :
    merge_csv_files readCsv0 id "merged.csv" ["a.csv", "b.csv"] none true =
      some ("merged.csv", [(1, some "a.csv"), (2, some "a.csv")]) ∧
    (∃ f ∈ excludeOutput ["a.csv", "b.csv"] none, ∃ rs,
      readCsv0 f = some rs ∧ ((1 : ℕ), some "a.csv").1 ∈ rs ∧
        ((1 : ℕ), (some "a.csv" : Option String)).2 = some (id f)) ∧
    merge_csv_files readCsv0 id "merged.csv" [] none true = none := by
  refine ⟨rfl, ?_, ?_⟩
  · have h := (merge_csv_files_spec readCsv0 id "merged.csv"
      ["a.csv", "b.csv"] none true).2 "merged.csv"
      [(1, some "a.csv"), (2, some "a.csv")] rfl
    exact h.2 rfl ((1 : ℕ), some "a.csv") (List.mem_cons_self _ _)
  · exact (merge_csv_files_spec readCsv0 id "merged.csv" [] none
      true).1.mpr (Or.inl rfl)

/-- Witness for C3 at `rowsC`. -/
theorem compare_configurations_spec_witness :
    compare_configurations_statistically ttestP0 ["M"] rowsC ["M"] =
      some [("M", matC)] ∧
    matC.entry 0 1 = matC.entry 1 0 ∧
    matC.entry 0 0 = some 1 ∧
    matC.entry 0 1 = some (ttestP0
      (metricValues rowsC "M" (matC.configs.getD 0 ""))
      (metricValues rowsC "M" (matC.configs.getD 1 ""))) ∧
    compare_configurations_statistically ttestP0 ["M"] [("a", fA)] ["M"] =
      none := by
  have h := (compare_configurations_spec ttestP0 ["M"] rowsC ["M"]).2.2
    [("M", matC)] rfl "M" matC (List.mem_singleton.mpr rfl)
  refine ⟨rfl, h.2.1 0 1, h.2.2.1 0, ?_, ?_⟩
  · exact (h.2.2.2 0 1 (by norm_num)).1 (by decide)
  · exact (compare_configurations_spec ttestP0 ["M"] [("a", fA)] ["M"]).1
      (by decide)

/-- Witness for C5 at concrete configuration strings. -/
theorem extract_parameter_spec_witness :
    (deriveParameterColumns parseFloat0 [some "autonomy-level=0.5_x"])[0]? =
      ([some "autonomy-level=0.5_x"] :
          List (Option String))[0]?.map (fun c =>
        (extract_parameter parseFloat0 c "autonomy-level" false,
         extract_parameter parseFloat0 c "cooperativeness-level" false,
         extract_parameter parseFloat0 c "use-memory" true,
         extract_parameter parseFloat0 c "memory-fade" false)) ∧
    extract_parameter parseFloat0 none "autonomy-level" false = none ∧
    extract_parameter parseFloat0 (some "zzz") "autonomy-level" false =
      none ∧
    (∃ v, extract_parameter parseFloat0 (some "autonomy-level=0.5_x")
      "autonomy-level" false = some v) := by
  have h := extract_parameter_spec parseFloat0 "autonomy-level" false
  refine ⟨h.1 [some "autonomy-level=0.5_x"] 0, h.2.1, ?_, ?_⟩
  · exact h.2.2.1 "zzz"
      ((searchParam_eq_none_iff "autonomy-level".toList "zzz".toList).mp
        (by decide))
  · exact h.2.2.2.1 "autonomy-level=0.5_x"
      ⟨[], '0', ".5_x".toList, by decide, by decide⟩

/-- Witness for C6 at `rowsC`. -/
theorem analyze_by_configuration_spec_witness :
    groupMean (metricValues rowsC "M" "a") =
      some (sampleMean (metricValues rowsC "M" "a")) ∧
    groupStd sqrtF0 (metricValues rowsC "M" "a") =
      some (sqrtF0 (sampleVar (metricValues rowsC "M" "a"))) ∧
    metricValues (rowsC ++ [("c", fA)]) "M" "a" =
      metricValues rowsC "M" "a" := by
  have hspec := analyze_by_configuration_spec sqrtF0 rowsC ["M"]
  have hmem : ("a", entryA) ∈ analyze_by_configuration sqrtF0 rowsC ["M"] :=
    List.mem_cons_self _ _
  have h := hspec.1 "a" entryA hmem "M"
    (groupMean (metricValues rowsC "M" "a"))
    (groupStd sqrtF0 (metricValues rowsC "M" "a"))
    (List.mem_singleton.mpr rfl)
  refine ⟨h.1 (by decide), h.2 (by decide), ?_⟩
  refine hspec.2 "a" [("c", fA)] ?_ "M"
  intro r hr
  rw [List.mem_singleton] at hr
  subst hr
  decide

/-- Witness for C7 at concrete file names. -/
theorem main_cli_spec_witness :
    resolvePaths none "results.csv".toList =
      resolvePaths (some "results.csv".toList) "results.csv".toList ∧
    resolvePaths (some "data".toList) "results.csv".toList =
      ("data.csv".toList, "data".toList) ∧
    resolvePaths (some "data.csv".toList) "results.csv".toList =
      ("data.csv".toList, "data".toList) ∧
    mainProceeds (none : Option (List ℕ)) = false := by
  have h := main_cli_spec (ρ := ℕ) "results.csv".toList
  refine ⟨h.1, ?_, ?_, (h.2.2.2 none).mpr (Or.inl rfl)⟩
  · exact (h.2.1 "data".toList (by decide)).trans (by decide)
  · exact (h.2.2.1 "data.csv".toList (by decide)).1.trans (by decide)

end CourierAnalysis
